import Mathlib

/-!
# Verification of the near-to-far-field projection engine

A shallow embedding of `tidy3d/components/field_projection.py` (class
`FieldProjector`): surface-current extraction, trapezoidal integration,
resampling/colocation bounds, the far-field approximation engine's final
field assembly, the exact engine's Green's function, dimensionality
classification, error branches, and surface accumulation.

Conventions of the embedding:
* numpy arrays of complex field samples become functions into `ℂ`
  (vectorized numpy arithmetic is pointwise, so array claims are stated
  per index);
* spatial coordinates and frequencies become `ℚ` where the code only
  compares, clips and counts them (so the model stays executable), and
  `ℝ`/`ℂ` where the code does transcendental arithmetic;
* Python exceptions become `Except` values carrying the data the
  exception message interpolates.
-/

namespace Tidy3d

/-- Normal direction of a projection surface: the `"+"` / `"-"` literal of
`FieldProjectionSurface.normal_dir`. -/
inductive Direction where
  | plus
  | minus
deriving DecidableEq, Repr

/-- Errors raised by the projector (`SetupError` in the source); each
constructor carries the data interpolated into the exception message. -/
inductive SetupError where
  /-- `"Frequency {frequency} not found in fields for monitor '{name}'."` -/
  | freqNotFound (frequency : ℚ) (monitor_name : String)
  /-- `"No data for monitor named '{monitor_name}' found in sim_data."` -/
  | noMonitorData (monitor_name : String)
deriving DecidableEq, Repr

/-- The four tangential field components stored for one surface, each a
complex sample indexed by `ι` (in-plane position × frequency). `E1`/`E2`
are the electric components along the two in-plane axes, `H1`/`H2` the
magnetic ones. -/
structure TangentialFields (ι : Type) where
  E1 : ι → ℂ
  E2 : ι → ℂ
  H1 : ι → ℂ
  H2 : ι → ℂ

/-- Sign pattern of `_fields_to_currents` (field_projection.py lines
252-256): start from `[-1, 1]`, negate if the surface's axis index is odd,
negate again if the normal direction is `"-"`. -/
def signs (axis : Fin 3) (normal_dir : Direction) : ℤ × ℤ :=
  let s0 : ℤ × ℤ := (-1, 1)
  let s1 : ℤ × ℤ := if axis.val % 2 ≠ 0 then (-s0.1, -s0.2) else s0
  if normal_dir = Direction.minus then (-s1.1, -s1.2) else s1

/-- `_fields_to_currents` (lines 252-279): relabel the tangential `H`
components, scaled by the signs, as `E`-named current components and the
tangential `E` components, scaled by the signs, as `H`-named ones.
The output at index `i` depends only on the input at the same index:
no aggregation across frequencies or positions. -/
def fields_to_currents {ι : Type} (axis : Fin 3) (normal_dir : Direction)
    (field_data : TangentialFields ι) : TangentialFields ι :=
  let s := signs axis normal_dir
  { E2 := fun i => field_data.H1 i * ((s.2 : ℤ) : ℂ)
    E1 := fun i => field_data.H2 i * ((s.1 : ℤ) : ℂ)
    H2 := fun i => field_data.E1 i * ((s.1 : ℤ) : ℂ)
    H1 := fun i => field_data.E2 i * ((s.2 : ℤ) : ℂ) }

/-- C2: the sign pattern is `[-1, 1]` negated exactly once when the axis
index is odd and exactly once more when the normal direction is `"-"`
(expressed by powers of `-1` counting the two negations), and the
extractor relabels the tangential `H` components (times the signs) as
`E`-named current components and the tangential `E` components (times the
signs) as `H`-named ones, pointwise in the index (no aggregation across
frequencies or surfaces). -/
theorem fields_to_currents_sign_spec {ι : Type} (axis : Fin 3) (dir : Direction)
    (fd : TangentialFields ι) (i : ι) :
    signs axis dir =
      ((-1 : ℤ) ^ (if axis.val % 2 = 1 then 1 else 0) *
          (-1) ^ (if dir = Direction.minus then 1 else 0) * (-1),
        (-1 : ℤ) ^ (if axis.val % 2 = 1 then 1 else 0) *
          (-1) ^ (if dir = Direction.minus then 1 else 0) * 1)
    ∧ (fields_to_currents axis dir fd).E2 i = fd.H1 i * (((signs axis dir).2 : ℤ) : ℂ)
    ∧ (fields_to_currents axis dir fd).E1 i = fd.H2 i * (((signs axis dir).1 : ℤ) : ℂ)
    ∧ (fields_to_currents axis dir fd).H2 i = fd.E1 i * (((signs axis dir).1 : ℤ) : ℂ)
    ∧ (fields_to_currents axis dir fd).H1 i = fd.E2 i * (((signs axis dir).2 : ℤ) : ℂ) := by
  refine ⟨?_, rfl, rfl, rfl, rfl⟩
  fin_cases axis <;> cases dir <;> decide

/-- Modelled from the spec: the kernel `trapz` of
`FieldProjector.trapezoid` is imported from `autograd.functions` (not
under the visible source); per the spec's integrator contract it is the
one-axis trapezoidal rule over `n` non-uniform sample points:
`∑ (pts[i+1] - pts[i]) * (ary[i] + ary[i+1]) / 2`. -/
noncomputable def trapz (n : ℕ) (ary : ℕ → ℂ) (pts : ℕ → ℝ) : ℂ :=
  ∑ i in Finset.range (n - 1), ((pts (i + 1) - pts i : ℝ) : ℂ) * (ary i + ary (i + 1)) / 2

/-- `FieldProjector.trapezoid` restricted to one integration axis (lines
379-384): integrate via `trapz` when the axis has more than one sample
point, otherwise select the single slice at index 0 unchanged. -/
noncomputable def trapezoid (n : ℕ) (ary : ℕ → ℂ) (pts : ℕ → ℝ) : ℂ :=
  if 1 < n then trapz n ary pts else ary 0

/-- Helper: trapezoidal integration of a constant telescopes to the
constant times the total span of the sample points. -/
theorem trapz_const (n : ℕ) (c : ℂ) (pts : ℕ → ℝ) :
    trapz (n + 1) (fun _ => c) pts = c * ((pts n - pts 0 : ℝ) : ℂ) := by
  unfold trapz
  have h1 : ∀ i ∈ Finset.range n,
      ((pts (i + 1) - pts i : ℝ) : ℂ) * (c + c) / 2 = ((pts (i + 1) - pts i : ℝ) : ℂ) * c := by
    intro i _
    ring
  rw [Nat.add_sub_cancel, Finset.sum_congr rfl h1, ← Finset.sum_mul]
  have h2 : ∑ i in Finset.range n, ((pts (i + 1) - pts i : ℝ) : ℂ)
      = ((pts n - pts 0 : ℝ) : ℂ) := by
    push_cast
    rw [Finset.sum_sub_distrib]
    norm_cast
    rw [← Finset.sum_sub_distrib]
    exact_mod_cast congrArg Complex.ofReal (Finset.sum_range_sub (fun i => pts i) n)
  rw [h2, mul_comm]

/-- C3: integrating a constant `c` over `m + 2` uniformly spaced points
spanning length `L` returns `c * L`; an axis with exactly one point
returns the original value at index 0 unscaled (the single slice, not zero
and not scaled). -/
theorem trapezoid_spec (m : ℕ) (c : ℂ) (a L : ℝ) :
    trapezoid (m + 2) (fun _ => c) (fun i => a + i * (L / (m + 1))) = c * L
    ∧ ∀ (ary : ℕ → ℂ) (pts : ℕ → ℝ), trapezoid 1 ary pts = ary 0 := by
  constructor
  · have hgt : 1 < m + 2 := by omega
    rw [trapezoid, if_pos hgt]
    have := trapz_const (m + 1) c (fun i => a + i * (L / (m + 1)))
    rw [this]
    have hm : ((m : ℝ) + 1) ≠ 0 := by positivity
    have hspan : (a + (m + 1 : ℕ) * (L / (m + 1)) - (a + (0 : ℕ) * (L / (m + 1))) : ℝ) = L := by
      push_cast
      field_simp
    simp only [hspan]
  · intro ary pts
    rw [trapezoid, if_neg (by omega)]

/-- `sum(1 for size in simulation.size if size != 0)` (line 98), over the
simulation's 3-component size tuple. -/
def non_zero_dims (size : ℚ × ℚ × ℚ) : ℕ :=
  ([size.1, size.2.1, size.2.2].filter (fun s => decide (s ≠ 0))).length

/-- `is_2d_simulation` (lines 96-99): the simulation has exactly two
non-zero-size axes. -/
def is_2d_simulation (size : ℚ × ℚ × ℚ) : Bool :=
  non_zero_dims size == 2

/-- `zero_dim = [dim for dim, size in enumerate(simulation.size) if size == 0]`
(line 431). -/
def zero_dims (size : ℚ × ℚ × ℚ) : List ℕ :=
  (([(0, size.1), (1, size.2.1), (2, size.2.2)] : List (ℕ × ℚ)).filter
    (fun p => decide (p.2 = 0))).map Prod.fst

/-- The dimensionality branch of `_far_fields_for_surface` (lines
431-439): when the simulation is classified as 2D, require exactly one
zero-size axis (otherwise the `ValueError`) and return that axis (used to
select the 1D integration axis); otherwise perform no check and return
`none` (the 3D integration path). -/
def dimension_check (size : ℚ × ℚ × ℚ) : Except String (Option ℕ) :=
  let zero_dim := zero_dims size
  if is_2d_simulation size then
    if zero_dim.length ≠ 1 then
      Except.error "Expected exactly one dimension with size 0 for 2D simulation"
    else Except.ok (some zero_dim.headI)
  else Except.ok none

/-- C8 counterexample: the simulation size `(0, 0, 1)` has two zero-size
axes, yet it is not classified as 2D and the dimensionality branch raises
no error at all — contrary to the claim that a size with more than one
zero-size axis raises the ambiguous-dimensionality configuration error. -/
theorem two_zero_dims_no_error :
    (zero_dims (0, 0, 1)).length = 2
    ∧ is_2d_simulation (0, 0, 1) = false
    ∧ dimension_check (0, 0, 1) = Except.ok none := by
  refine ⟨by decide, by decide, rfl⟩

/-- C8 amended: a simulation is classified as 2D exactly when it has
exactly one zero-size axis, so the classification is never ambiguous: the
error branch guarding the 2D path is unreachable, and `dimension_check`
returns an error for no simulation size (sizes with more than one
zero-size axis are simply not classified as 2D). -/
theorem is_2d_dimension_check_spec (size : ℚ × ℚ × ℚ) :
    (is_2d_simulation size = true ↔ (zero_dims size).length = 1)
    ∧ ∀ e, dimension_check size ≠ Except.error e := by
  obtain ⟨a, b, c⟩ := size
  by_cases ha : a = 0 <;> by_cases hb : b = 0 <;> by_cases hc : c = 0 <;>
    simp [is_2d_simulation, non_zero_dims, zero_dims, dimension_check, ha, hb, hc]

/-- Clamping of grid boundary values (lines 337-338): every value below
`start` is replaced by `start` and every value above `stop` is replaced by
`stop`. -/
def clip_points (points : List ℚ) (start stop : ℚ) : List ℚ :=
  points.map (fun p => if p < start then start else if stop < p then stop else p)

/-- `np.unique` (line 339): the sorted list of distinct values. -/
def np_unique (l : List ℚ) : List ℚ :=
  (l.insertionSort (· ≤ ·)).dedup

/-- Sampling bounds for one in-plane axis (lines 326-333): the
intersection of the monitor's extent and the simulation domain's extent
along that axis. -/
def clip_bounds (mon_center mon_size sim_center sim_size : ℚ) : ℚ × ℚ :=
  (max (mon_center - mon_size / 2) (sim_center - sim_size / 2),
    min (mon_center + mon_size / 2) (sim_center + sim_size / 2))

/-- `_resample_surface_currents`, `pts_per_wavelength = None` branch
(lines 335-339) for one in-plane axis: clamp the simulation grid boundary
values into the clipped bounds, then take `np.unique` of the result. -/
def resample_axis_none (grid_boundaries : List ℚ)
    (mon_center mon_size sim_center sim_size : ℚ) : List ℚ :=
  let b := clip_bounds mon_center mon_size sim_center sim_size
  np_unique (clip_points grid_boundaries b.1 b.2)

/-- C5 counterexample: grid boundaries `[0, 1, 2, 3]`, monitor spanning
`[2, 4]`, simulation spanning `[0, 3]`, so the clipped bounds are
`[2, 3]`: the clipped boundary sequence is `[2, 2, 2, 3]`, but `np.unique`
deduplicates it, so the code's output `[2, 3]` is not the clipped
simulation boundary sequence. -/
theorem resample_none_clip_counterexample :
    clip_bounds 3 2 (3 / 2) 3 = (2, 3)
    ∧ clip_points [0, 1, 2, 3] 2 3 = [2, 2, 2, 3]
    ∧ resample_axis_none [0, 1, 2, 3] 3 2 (3 / 2) 3 = [2, 3]
    ∧ resample_axis_none [0, 1, 2, 3] 3 2 (3 / 2) 3 ≠ clip_points [0, 1, 2, 3] 2 3 := by
  have h1 : clip_bounds 3 2 (3 / 2) 3 = (2, 3) := by
    unfold clip_bounds
    norm_num
  have h2 : clip_points [0, 1, 2, 3] 2 3 = [2, 2, 2, 3] := by
    unfold clip_points
    norm_num
  have h3 : resample_axis_none [0, 1, 2, 3] 3 2 (3 / 2) 3 = [2, 3] := by
    unfold resample_axis_none np_unique
    rw [h1]
    norm_num [clip_points, List.insertionSort, List.orderedInsert, List.dedup]
  refine ⟨h1, h2, h3, ?_⟩
  rw [h2, h3]
  intro h
  exact absurd (congrArg List.length h) (by norm_num)

/-- C5 amended: with `pts_per_wavelength = None` the output sequence for
an axis is the clipped simulation boundary sequence after sorting and
removal of duplicates: it is strictly sorted and holds exactly the values
of the clipped sequence (it equals the clipped sequence itself only when
that sequence is already sorted and duplicate-free). -/
theorem resample_none_unique_sorted (grid_boundaries : List ℚ)
    (mon_center mon_size sim_center sim_size : ℚ) :
    (resample_axis_none grid_boundaries mon_center mon_size sim_center sim_size).Sorted (· < ·)
    ∧ ∀ x : ℚ,
        x ∈ resample_axis_none grid_boundaries mon_center mon_size sim_center sim_size
          ↔ x ∈ clip_points grid_boundaries
              (clip_bounds mon_center mon_size sim_center sim_size).1
              (clip_bounds mon_center mon_size sim_center sim_size).2 := by
  constructor
  · unfold resample_axis_none np_unique
    have hs : (List.insertionSort (· ≤ ·) (clip_points grid_boundaries
        (clip_bounds mon_center mon_size sim_center sim_size).1
        (clip_bounds mon_center mon_size sim_center sim_size).2)).dedup.Sorted (· ≤ ·) :=
      List.Pairwise.sublist (List.dedup_sublist _) (List.sorted_insertionSort _ _)
    exact List.Sorted.lt_of_le hs (List.nodup_dedup _)
  · intro x
    unfold resample_axis_none np_unique
    rw [List.mem_dedup]
    exact (List.perm_insertionSort _ _).mem_iff

/-- `max(surface.monitor.freqs)` (line 317): the largest frequency stored
on the monitor, whose frequency list `f0 :: fs` is nonempty. -/
def max_freq (f0 : ℚ) (fs : List ℚ) : ℚ :=
  fs.foldl max f0

/-- The resampling wavelength (lines 317-320):
`wavelength = C_0 / frequency / index_n` at the highest stored frequency.
The speed of light `c_0` and refractive index `index_n` enter as
parameters (the constants module and the medium's `eps_model` are
external collaborators). -/
def resample_wavelength (c_0 index_n : ℚ) (f0 : ℚ) (fs : List ℚ) : ℚ :=
  c_0 / max_freq f0 fs / index_n

/-- `num_pts = int(np.ceil(pts_per_wavelength * size / wavelength))`
(line 342). -/
def num_pts (pts_per_wavelength span wavelength : ℚ) : ℤ :=
  ⌈pts_per_wavelength * span / wavelength⌉

/-- `np.linspace(start, stop, num)` (line 343): `num` uniformly spaced
points from `start` to `stop`, both endpoints included. -/
def linspace (start stop : ℚ) (num : ℕ) : List ℚ :=
  (List.range num).map (fun i : ℕ => start + (i : ℚ) * ((stop - start) / ((num : ℚ) - 1)))

/-- `_resample_surface_currents`, numeric-density branch (lines 324-344)
for one in-plane axis: clip the bounds to the monitor/simulation
intersection, compute the wavelength at the highest stored frequency, and
sample `num_pts` uniformly spaced points between the bounds. -/
def resample_axis_density (pts_per_wavelength : ℚ)
    (mon_center mon_size sim_center sim_size : ℚ)
    (c_0 index_n : ℚ) (f0 : ℚ) (fs : List ℚ) : List ℚ :=
  linspace (clip_bounds mon_center mon_size sim_center sim_size).1
    (clip_bounds mon_center mon_size sim_center sim_size).2
    ((num_pts pts_per_wavelength
        ((clip_bounds mon_center mon_size sim_center sim_size).2
          - (clip_bounds mon_center mon_size sim_center sim_size).1)
        (resample_wavelength c_0 index_n f0 fs)).toNat)

/-- Helper: `linspace` produces exactly `num` points. -/
theorem linspace_length (start stop : ℚ) (num : ℕ) :
    (linspace start stop num).length = num := by
  simp [linspace]

/-- Helper: the `i`-th point of `linspace` is
`start + i * ((stop - start) / (num - 1))`. -/
theorem linspace_getD (start stop : ℚ) (num i : ℕ) (h : i < num) :
    (linspace start stop num).getD i 0
      = start + i * ((stop - start) / ((num : ℚ) - 1)) := by
  unfold linspace
  rw [List.getD_eq_getElem?_getD, List.getElem?_map, List.getElem?_range h]
  rfl

/-- C4: for a numeric point density, the resampler samples, along an
in-plane axis, exactly `ceil(density * span / wavelength)` uniformly
spaced points spanning the intersection `[start, stop]` of the monitor's
extent and the simulation domain's extent, where the wavelength is
`c / (frequency * refractive_index)` evaluated at the highest frequency
stored on the monitor. -/
theorem resample_density_spec (ppw mon_c mon_s sim_c sim_s c_0 index_n f0 : ℚ)
    (fs : List ℚ) (start stop : ℚ) (n : ℕ)
    (hb : clip_bounds mon_c mon_s sim_c sim_s = (start, stop))
    (hn : n = (num_pts ppw (stop - start) (resample_wavelength c_0 index_n f0 fs)).toNat)
    (h2 : 2 ≤ num_pts ppw (stop - start) (resample_wavelength c_0 index_n f0 fs)) :
    (resample_axis_density ppw mon_c mon_s sim_c sim_s c_0 index_n f0 fs).length = n
    ∧ (∀ i : ℕ, i < n →
        (resample_axis_density ppw mon_c mon_s sim_c sim_s c_0 index_n f0 fs).getD i 0
          = start + i * ((stop - start) / ((n : ℚ) - 1)))
    ∧ (resample_axis_density ppw mon_c mon_s sim_c sim_s c_0 index_n f0 fs).getD 0 0 = start
    ∧ (resample_axis_density ppw mon_c mon_s sim_c sim_s c_0 index_n f0 fs).getD (n - 1) 0
        = stop
    ∧ resample_wavelength c_0 index_n f0 fs = c_0 / (max_freq f0 fs * index_n) := by
  have hres : resample_axis_density ppw mon_c mon_s sim_c sim_s c_0 index_n f0 fs
      = linspace start stop n := by
    unfold resample_axis_density
    rw [hb, hn]
  have hn2 : 2 ≤ n := by
    rw [hn]
    exact_mod_cast Int.toNat_le_toNat h2
  have hne : ((n : ℚ) - 1) ≠ 0 := by
    have : (2 : ℚ) ≤ (n : ℚ) := by exact_mod_cast hn2
    intro hcontra
    nlinarith
  refine ⟨?_, ?_, ?_, ?_, ?_⟩
  · rw [hres, linspace_length]
  · intro i hi
    rw [hres, linspace_getD start stop n i hi]
  · rw [hres, linspace_getD start stop n 0 (by omega)]
    simp
  · rw [hres, linspace_getD start stop n (n - 1) (by omega)]
    have hcast : (((n - 1 : ℕ)) : ℚ) = (n : ℚ) - 1 := by
      have : (1 : ℕ) ≤ n := by omega
      push_cast [this]
      ring
    rw [hcast, mul_div_cancel₀ _ hne]
    ring
  · unfold resample_wavelength
    rw [div_div]

/-- Witness for C4: a monitor spanning `[0, 1]` in a simulation spanning
`[0, 4]`, density 10, wavelength 2, giving `ceil(10 * 1 / 2) = 5` sample
points. -/
theorem resample_density_spec_witness :
    clip_bounds (1 / 2) 1 2 4 = (0, 1)
    ∧ 5 = (num_pts 10 (1 - 0) (resample_wavelength 2 1 1 [])).toNat
    ∧ 2 ≤ num_pts 10 (1 - 0) (resample_wavelength 2 1 1 [])
    ∧ ((resample_axis_density 10 (1 / 2) 1 2 4 2 1 1 []).length = 5
      ∧ (∀ i : ℕ, i < 5 →
          (resample_axis_density 10 (1 / 2) 1 2 4 2 1 1 []).getD i 0
            = 0 + i * ((1 - 0) / ((5 : ℚ) - 1)))
      ∧ (resample_axis_density 10 (1 / 2) 1 2 4 2 1 1 []).getD 0 0 = 0
      ∧ (resample_axis_density 10 (1 / 2) 1 2 4 2 1 1 []).getD (5 - 1) 0 = 1
      ∧ resample_wavelength 2 1 1 [] = 2 / (max_freq 1 [] * 1)) := by
  have hb : clip_bounds (1 / 2) 1 2 4 = ((0 : ℚ), (1 : ℚ)) := by
    unfold clip_bounds
    norm_num
  have hval : num_pts 10 (1 - 0) (resample_wavelength 2 1 1 []) = 5 := by
    unfold num_pts resample_wavelength max_freq
    norm_num
  have hn : (5 : ℕ) = (num_pts 10 (1 - 0) (resample_wavelength 2 1 1 [])).toNat := by
    rw [hval]
    rfl
  have h2 : 2 ≤ num_pts 10 (1 - 0) (resample_wavelength 2 1 1 []) := by
    rw [hval]
    norm_num
  exact ⟨hb, hn, h2,
    resample_density_spec 10 (1 / 2) 1 2 4 2 1 1 [] 0 1 5 hb hn h2⟩

/-- `monitor.pop_axis((0, 1, 2), axis)` (lines 427-428): the normal axis
index and the ordered pair of in-plane axis indices. -/
def pop_axis (axis : Fin 3) : Fin 3 × (Fin 3 × Fin 3) :=
  match axis with
  | 0 => (0, (1, 2))
  | 1 => (1, (0, 2))
  | 2 => (2, (0, 1))

/-- Assembly of the Cartesian electric current 3-vector `J` (lines
483-488) from the four integrated current components `jm`: the two
in-plane entries `jm 0`, `jm 1` are placed into the Cartesian slots
`idx_u`, `idx_v`; the normal slot is zero. -/
def assemble_J (jm : Fin 4 → ℂ) (axis : Fin 3) : Fin 3 → ℂ := fun i =>
  if i = (pop_axis axis).2.1 then jm 0
  else if i = (pop_axis axis).2.2 then jm 1
  else 0

/-- Assembly of the magnetic current 3-vector `M` (line 489): as for `J`
but offset by two in the `jm` list. -/
def assemble_M (jm : Fin 4 → ℂ) (axis : Fin 3) : Fin 3 → ℂ := fun i =>
  if i = (pop_axis axis).2.1 then jm 2
  else if i = (pop_axis axis).2.2 then jm 3
  else 0

/-- Radiation vector `Ntheta` (line 495, Balanis 8.33a), per observation
angle. -/
noncomputable def Ntheta (J : Fin 3 → ℂ) (theta phi : ℝ) : ℂ :=
  J 0 * ((Real.cos theta * Real.cos phi : ℝ) : ℂ)
    + J 1 * ((Real.cos theta * Real.sin phi : ℝ) : ℂ)
    - J 2 * ((Real.sin theta : ℝ) : ℂ)

/-- Radiation vector `Nphi` (line 498, Balanis 8.33b). -/
noncomputable def Nphi (J : Fin 3 → ℂ) (phi : ℝ) : ℂ :=
  -J 0 * ((Real.sin phi : ℝ) : ℂ) + J 1 * ((Real.cos phi : ℝ) : ℂ)

/-- Radiation vector `Ltheta` (line 501, Balanis 8.34a). -/
noncomputable def Ltheta (M : Fin 3 → ℂ) (theta phi : ℝ) : ℂ :=
  M 0 * ((Real.cos theta * Real.cos phi : ℝ) : ℂ)
    + M 1 * ((Real.cos theta * Real.sin phi : ℝ) : ℂ)
    - M 2 * ((Real.sin theta : ℝ) : ℂ)

/-- Radiation vector `Lphi` (line 504, Balanis 8.34b). -/
noncomputable def Lphi (M : Fin 3 → ℂ) (phi : ℝ) : ℂ :=
  -M 0 * ((Real.sin phi : ℝ) : ℂ) + M 1 * ((Real.cos phi : ℝ) : ℂ)

/-- The six projected field components at one observation point. -/
structure ProjectedFields where
  Er : ℂ
  Etheta : ℂ
  Ephi : ℂ
  Hr : ℂ
  Htheta : ℂ
  Hphi : ℂ

/-- The far-field assembly step of `_far_fields_for_surface` (lines
491-515): radiation vectors from `J`, `M` and the direction cosines, then
the transverse fields, with `eta` the medium's intrinsic impedance. -/
noncomputable def far_fields_assemble (J M : Fin 3 → ℂ) (theta phi : ℝ)
    (eta : ℂ) : ProjectedFields :=
  let Nt := Ntheta J theta phi
  let Np := Nphi J phi
  let Lt := Ltheta M theta phi
  let Lp := Lphi M phi
  let Et := -(Lp + eta * Nt)
  let Ep := Lt - eta * Np
  { Er := 0
    Etheta := Et
    Ephi := Ep
    Hr := 0
    Htheta := -Ep / eta
    Hphi := Et / eta }

/-- `_far_fields_for_surface` (lines 386-515), per observation angle,
with the integrated phase-weighted surface currents `jm` as input (the
upstream phase contraction and trapezoidal integration over the in-plane
axes are modelled by `trapz`/`trapezoid`): check the requested frequency
against the surface's stored frequency axis (lines 420-425), then
assemble `J`, `M` and the transverse far fields. -/
noncomputable def far_fields_for_surface (stored_freqs : List ℚ) (frequency : ℚ)
    (monitor_name : String) (axis : Fin 3) (jm : Fin 4 → ℂ) (theta phi : ℝ)
    (eta : ℂ) : Except SetupError ProjectedFields :=
  if frequency ∈ stored_freqs then
    Except.ok (far_fields_assemble (assemble_J jm axis) (assemble_M jm axis) theta phi eta)
  else
    Except.error (SetupError.freqNotFound frequency monitor_name)

/-- C1: when the requested frequency is stored, the far-field
approximation engine returns a six-component result whose `Er` and `Hr`
are identically zero and whose transverse components satisfy
`Etheta = -(Lphi + eta * Ntheta)`, `Ephi = Ltheta - eta * Nphi`,
`Htheta = -Ephi / eta`, `Hphi = Etheta / eta`, with the radiation vectors
taken at the currents `J`, `M` assembled from the surface's integrated
currents. -/
theorem far_fields_transverse_spec (stored_freqs : List ℚ) (frequency : ℚ)
    (monitor_name : String) (axis : Fin 3) (jm : Fin 4 → ℂ) (theta phi : ℝ)
    (eta : ℂ) (h : frequency ∈ stored_freqs) :
    ∃ result : ProjectedFields,
      far_fields_for_surface stored_freqs frequency monitor_name axis jm theta phi eta
          = Except.ok result
      ∧ result.Er = 0
      ∧ result.Hr = 0
      ∧ result.Etheta
          = -(Lphi (assemble_M jm axis) phi + eta * Ntheta (assemble_J jm axis) theta phi)
      ∧ result.Ephi
          = Ltheta (assemble_M jm axis) theta phi - eta * Nphi (assemble_J jm axis) phi
      ∧ result.Htheta = -result.Ephi / eta
      ∧ result.Hphi = result.Etheta / eta := by
  refine ⟨far_fields_assemble (assemble_J jm axis) (assemble_M jm axis) theta phi eta,
    ?_, rfl, rfl, rfl, rfl, rfl, rfl⟩
  rw [far_fields_for_surface, if_pos h]

/-- Witness for C1 at a concrete stored frequency. -/
theorem far_fields_transverse_spec_witness :
    ((1 : ℚ) ∈ ([1] : List ℚ))
    ∧ ∃ result : ProjectedFields,
        far_fields_for_surface [1] 1 "monitor_1" 0 (fun _ => 0) 0 0 1 = Except.ok result
        ∧ result.Er = 0
        ∧ result.Hr = 0
        ∧ result.Etheta
            = -(Lphi (assemble_M (fun _ => 0) 0) 0
                + 1 * Ntheta (assemble_J (fun _ => 0) 0) 0 0)
        ∧ result.Ephi
            = Ltheta (assemble_M (fun _ => 0) 0) 0 0
              - 1 * Nphi (assemble_J (fun _ => 0) 0) 0
        ∧ result.Htheta = -result.Ephi / 1
        ∧ result.Hphi = result.Etheta / 1 :=
  ⟨List.mem_singleton.mpr rfl,
    far_fields_transverse_spec [1] 1 "monitor_1" 0 (fun _ => 0) 0 0 1
      (List.mem_singleton.mpr rfl)⟩

/-- C7: when the requested frequency is absent from the surface's stored
frequency axis, the far-field approximation engine raises a `SetupError`
carrying the offending frequency and the offending monitor's name (the
data interpolated into the exception message), and produces no field
result. -/
theorem far_fields_missing_frequency (stored_freqs : List ℚ) (frequency : ℚ)
    (monitor_name : String) (axis : Fin 3) (jm : Fin 4 → ℂ) (theta phi : ℝ)
    (eta : ℂ) (h : frequency ∉ stored_freqs) :
    far_fields_for_surface stored_freqs frequency monitor_name axis jm theta phi eta
      = Except.error (SetupError.freqNotFound frequency monitor_name) := by
  rw [far_fields_for_surface, if_neg h]

/-- Witness for C7: frequency 5 is not among the stored frequencies
`[2, 3]`. -/
theorem far_fields_missing_frequency_witness :
    ((5 : ℚ) ∉ ([2, 3] : List ℚ))
    ∧ far_fields_for_surface [2, 3] 5 "monitor_1" 0 (fun _ => 0) 0 0 1
        = Except.error (SetupError.freqNotFound 5 "monitor_1") := by
  have h : (5 : ℚ) ∉ ([2, 3] : List ℚ) := by
    simp only [List.mem_cons, List.not_mem_nil, or_false]
    push_neg
    norm_num
  exact ⟨h, far_fields_missing_frequency [2, 3] 5 "monitor_1" 0 (fun _ => 0) 0 0 1 h⟩

/-- Modelled from the spec: `add_at(fields, where, contribution)` is
imported from `autograd.functions` (not under the visible source); per
the spec it is an index-scoped additive write into the output buffer
(used at lines 624, 642; modelled over the buffer's full index space
`ι`). -/
def add_at {ι : Type} (buf contribution : ι → ℂ) : ι → ℂ :=
  fun i => buf i + contribution i

/-- The surface accumulation loop of `_project_fields_angular` (lines
600, 610-642): starting from a zero-initialized output buffer, add each
surface's projected-field contribution in iteration order. -/
def accumulate_surfaces {S ι : Type} (surfaces : List S)
    (contribution : S → ι → ℂ) : ι → ℂ :=
  surfaces.foldl (fun buf s => add_at buf (contribution s)) (fun _ => 0)

/-- Helper: accumulating into a buffer adds the sum of all
contributions. -/
theorem foldl_add_at {S ι : Type} (l : List S) (c : S → ι → ℂ)
    (init : ι → ℂ) (i : ι) :
    (l.foldl (fun buf s => add_at buf (c s)) init) i
      = init i + (l.map (fun s => c s i)).sum := by
  induction l generalizing init with
  | nil => simp
  | cons head tail ih =>
    rw [List.foldl_cons, ih, List.map_cons, List.sum_cons]
    simp [add_at, add_assoc]

/-- C9: the accumulated projected fields do not depend on the iteration
order of the surfaces: permuting the surfaces list leaves the buffer
produced by the zero-initialized additive accumulation unchanged (exact
complex arithmetic). -/
theorem accumulate_surfaces_perm_invariant {S ι : Type} (l₁ l₂ : List S)
    (contribution : S → ι → ℂ) (hperm : l₁.Perm l₂) :
    accumulate_surfaces l₁ contribution = accumulate_surfaces l₂ contribution := by
  funext i
  unfold accumulate_surfaces
  rw [foldl_add_at, foldl_add_at, (hperm.map (fun s => contribution s i)).sum_eq]

/-- Witness for C9: two surfaces accumulated in both orders. -/
theorem accumulate_surfaces_perm_invariant_witness :
    (([1, 2] : List ℕ).Perm [2, 1])
    ∧ accumulate_surfaces ([1, 2] : List ℕ) (fun (s : ℕ) (_ : Unit) => (s : ℂ))
        = accumulate_surfaces ([2, 1] : List ℕ) (fun (s : ℕ) (_ : Unit) => (s : ℂ)) :=
  ⟨List.Perm.swap 2 1 [],
    accumulate_surfaces_perm_invariant [1, 2] [2, 1] _ (List.Perm.swap 2 1 [])⟩

/-- `compute_surface_currents` (lines 191-230): reject a surface whose
monitor name has no entry in the simulation data's monitor data (lines
219-221), otherwise extract the currents with `_fields_to_currents` and
hand them to the resampling step (the colocation itself is an external
collaborator, passed as `resample`). -/
def compute_surface_currents {ι : Type}
    (monitor_data : List (String × TangentialFields ι)) (monitor_name : String)
    (axis : Fin 3) (normal_dir : Direction)
    (resample : TangentialFields ι → TangentialFields ι) :
    Except SetupError (TangentialFields ι) :=
  match monitor_data.lookup monitor_name with
  | none => Except.error (SetupError.noMonitorData monitor_name)
  | some field_data =>
    Except.ok (resample (fields_to_currents axis normal_dir field_data))

/-- C10: when the surface monitor's name is not among the simulation
data's monitor keys, `compute_surface_currents` raises a `SetupError`
naming the missing monitor, and extracts and resamples no currents. -/
theorem compute_surface_currents_missing_monitor {ι : Type}
    (monitor_data : List (String × TangentialFields ι)) (monitor_name : String)
    (axis : Fin 3) (normal_dir : Direction)
    (resample : TangentialFields ι → TangentialFields ι)
    (h : monitor_name ∉ monitor_data.map Prod.fst) :
    compute_surface_currents monitor_data monitor_name axis normal_dir resample
      = Except.error (SetupError.noMonitorData monitor_name) := by
  have hl : monitor_data.lookup monitor_name = none := by
    induction monitor_data with
    | nil => rfl
    | cons head tail ih =>
      rw [List.map_cons, List.mem_cons, not_or] at h
      obtain ⟨h1, h2⟩ := h
      obtain ⟨k, v⟩ := head
      have hk : (monitor_name == k) = false := beq_eq_false_iff_ne.mpr h1
      simp only [List.lookup, hk]
      exact ih h2
  rw [compute_surface_currents, hl]

/-- Witness for C10: simulation data holding only monitor `"a"`, queried
for monitor `"b"`. -/
theorem compute_surface_currents_missing_monitor_witness :
    (("b" : String) ∉
      ([("a", TangentialFields.mk (fun _ : Unit => 0) (fun _ => 0) (fun _ => 0)
          (fun _ => 0))].map Prod.fst))
    ∧ compute_surface_currents
        [("a", TangentialFields.mk (fun _ : Unit => 0) (fun _ => 0) (fun _ => 0)
            (fun _ => 0))]
        "b" 0 Direction.plus id
      = Except.error (SetupError.noMonitorData "b") := by
  have h : ("b" : String) ∉
      ([("a", TangentialFields.mk (fun _ : Unit => 0) (fun _ => 0) (fun _ => 0)
          (fun _ => 0))].map Prod.fst) := by
    simp
  exact ⟨h, compute_surface_currents_missing_monitor _ "b" 0 Direction.plus id h⟩

/-- The free-space scalar Green's function of `_fields_for_surface_exact`
(line 911): `G = exp(i k r) / (4 pi r)`. -/
noncomputable def G (k : ℂ) (r : ℝ) : ℂ :=
  Complex.exp (Complex.I * k * (r : ℂ)) / ((4 : ℂ) * (Real.pi : ℂ) * (r : ℂ))

/-- The code's first radial derivative term (line 912):
`dG_dr = G * (i k r - 1) / r`. -/
noncomputable def dG_dr (k : ℂ) (r : ℝ) : ℂ :=
  G k r * (Complex.I * k * (r : ℂ) - 1) / (r : ℂ)

/-- The code's second radial derivative term (line 913):
`d2G_dr2 = dG_dr * (i k r - 1) / r + G / r ^ 2`. -/
noncomputable def d2G_dr2 (k : ℂ) (r : ℝ) : ℂ :=
  dG_dr k r * (Complex.I * k * (r : ℂ) - 1) / (r : ℂ) + G k r / ((r : ℂ) ^ 2)

/-- C6: for every wavenumber `k` and radius `r > 0`, the quantities the
exact engine computes are the exact analytic radial derivatives of the
Green's function: `dG_dr k r` is the derivative of `r ↦ G k r` at `r`,
and `d2G_dr2 k r` is the derivative of `r ↦ dG_dr k r` at `r` (no finite
differencing). -/
theorem greens_function_derivatives (k : ℂ) (r : ℝ) (hr : 0 < r) :
    HasDerivAt (fun s : ℝ => G k s) (dG_dr k r) r
    ∧ HasDerivAt (fun s : ℝ => dG_dr k s) (d2G_dr2 k r) r := by
  have hr0 : r ≠ 0 := ne_of_gt hr
  have hrC : (r : ℂ) ≠ 0 := Complex.ofReal_ne_zero.mpr hr0
  have hpi : (Real.pi : ℂ) ≠ 0 := Complex.ofReal_ne_zero.mpr Real.pi_ne_zero
  have hexp : ∀ s : ℝ, HasDerivAt (fun t : ℝ => Complex.exp (Complex.I * k * (t : ℂ)))
      (Complex.I * k * Complex.exp (Complex.I * k * (s : ℂ))) s := by
    intro s
    have h0 : HasDerivAt (fun z : ℂ => Complex.I * k * z) (Complex.I * k) (s : ℂ) := by
      simpa using (hasDerivAt_id (s : ℂ)).const_mul (Complex.I * k)
    have h1 : HasDerivAt (fun z : ℂ => Complex.exp (Complex.I * k * z))
        (Complex.exp (Complex.I * k * (s : ℂ)) * (Complex.I * k)) (s : ℂ) := h0.cexp
    have h2 := h1.comp_ofReal
    simpa [mul_comm] using h2
  have hlin : ∀ s : ℝ, HasDerivAt (fun t : ℝ => Complex.I * k * (t : ℂ) - 1)
      (Complex.I * k) s := by
    intro s
    have h0 : HasDerivAt (fun z : ℂ => Complex.I * k * z - 1) (Complex.I * k) (s : ℂ) := by
      simpa using ((hasDerivAt_id (s : ℂ)).const_mul (Complex.I * k)).sub_const 1
    exact h0.comp_ofReal
  have hden : HasDerivAt (fun t : ℝ => (4 : ℂ) * (Real.pi : ℂ) * (t : ℂ))
      ((4 : ℂ) * (Real.pi : ℂ)) r := by
    have h0 : HasDerivAt (fun z : ℂ => (4 : ℂ) * (Real.pi : ℂ) * z)
        ((4 : ℂ) * (Real.pi : ℂ)) (r : ℂ) := by
      simpa using (hasDerivAt_id (r : ℂ)).const_mul ((4 : ℂ) * (Real.pi : ℂ))
    exact h0.comp_ofReal
  have hden2 : HasDerivAt (fun t : ℝ => (4 : ℂ) * (Real.pi : ℂ) * (t : ℂ) ^ 2)
      ((4 : ℂ) * (Real.pi : ℂ) * (2 * (r : ℂ))) r := by
    have hsq : HasDerivAt (fun z : ℂ => z ^ 2) (2 * (r : ℂ)) (r : ℂ) := by
      simpa using (hasDerivAt_id ((r : ℂ))).pow 2
    have h0 : HasDerivAt (fun z : ℂ => (4 : ℂ) * (Real.pi : ℂ) * z ^ 2)
        ((4 : ℂ) * (Real.pi : ℂ) * (2 * (r : ℂ))) (r : ℂ) := by
      simpa [mul_assoc] using hsq.const_mul ((4 : ℂ) * (Real.pi : ℂ))
    exact h0.comp_ofReal
  have hd0 : ((4 : ℂ) * (Real.pi : ℂ) * (r : ℂ)) ≠ 0 :=
    mul_ne_zero (mul_ne_zero (by norm_num) hpi) hrC
  have hd20 : ((4 : ℂ) * (Real.pi : ℂ) * (r : ℂ) ^ 2) ≠ 0 :=
    mul_ne_zero (mul_ne_zero (by norm_num) hpi) (pow_ne_zero 2 hrC)
  constructor
  · have hdiv := (hexp r).div hden hd0
    have hfun : (fun s : ℝ => G k s)
        = fun y : ℝ => Complex.exp (Complex.I * k * (y : ℂ))
            / ((4 : ℂ) * (Real.pi : ℂ) * (y : ℂ)) := by
      funext y
      rfl
    have heq : dG_dr k r
        = (Complex.I * k * Complex.exp (Complex.I * k * (r : ℂ))
              * ((4 : ℂ) * (Real.pi : ℂ) * (r : ℂ))
            - Complex.exp (Complex.I * k * (r : ℂ)) * ((4 : ℂ) * (Real.pi : ℂ)))
          / ((4 : ℂ) * (Real.pi : ℂ) * (r : ℂ)) ^ 2 := by
      unfold dG_dr G
      field_simp
      ring
    rw [hfun, heq]
    exact hdiv
  · have hnum2 := (hexp r).mul (hlin r)
    have hdiv2 := hnum2.div hden2 hd20
    have hev : (fun s : ℝ => dG_dr k s)
        =ᶠ[nhds r] fun s : ℝ => Complex.exp (Complex.I * k * (s : ℂ))
            * (Complex.I * k * (s : ℂ) - 1) / ((4 : ℂ) * (Real.pi : ℂ) * (s : ℂ) ^ 2) := by
      filter_upwards [eventually_ne_nhds hr0] with s hs
      have hsC : (s : ℂ) ≠ 0 := Complex.ofReal_ne_zero.mpr hs
      unfold dG_dr G
      field_simp
      ring_nf
      simp
    have hval : d2G_dr2 k r
        = ((Complex.I * k * Complex.exp (Complex.I * k * (r : ℂ))
                * (Complex.I * k * (r : ℂ) - 1)
              + Complex.exp (Complex.I * k * (r : ℂ)) * (Complex.I * k))
              * ((4 : ℂ) * (Real.pi : ℂ) * (r : ℂ) ^ 2)
            - Complex.exp (Complex.I * k * (r : ℂ)) * (Complex.I * k * (r : ℂ) - 1)
              * ((4 : ℂ) * (Real.pi : ℂ) * (2 * (r : ℂ))))
          / ((4 : ℂ) * (Real.pi : ℂ) * (r : ℂ) ^ 2) ^ 2 := by
      unfold d2G_dr2 dG_dr G
      field_simp
      ring
    have hg2 : HasDerivAt
        (fun s : ℝ => Complex.exp (Complex.I * k * (s : ℂ))
          * (Complex.I * k * (s : ℂ) - 1) / ((4 : ℂ) * (Real.pi : ℂ) * (s : ℂ) ^ 2))
        (d2G_dr2 k r) r := by
      rw [hval]
      exact hdiv2
    exact hg2.congr_of_eventuallyEq hev

/-- Witness for C6 at `k = 1`, `r = 1`. -/
theorem greens_function_derivatives_witness :
    (0 : ℝ) < 1
    ∧ (HasDerivAt (fun s : ℝ => G 1 s) (dG_dr 1 1) 1
      ∧ HasDerivAt (fun s : ℝ => dG_dr 1 s) (d2G_dr2 1 1) 1) :=
  ⟨by norm_num, greens_function_derivatives 1 1 (by norm_num)⟩

end Tidy3d
